import Mathlib

/-!
Shallow embedding of the TeamCity MCP client (src/client/teamcity-client.ts,
src/utils/security.ts, src/index.ts) and proofs about its sanitization,
validation, locator-building, error-translation and build-lifecycle logic.

Strings are modelled as Lean `String` (lists of characters); JavaScript
`substring`/`replace`-with-empty are modelled as `List.take`/`List.filter`
on the character list.  JavaScript objects are modelled as ordered
association lists with JS insertion semantics (assigning to an existing key
overwrites in place, otherwise appends).  Fallible calls return `Except`.
-/

namespace TCMCP

/-- `s.substring(0, n)`: keep the first `n` characters. -/
def strCut (s : String) (n : Nat) : String :=
  String.mk (s.toList.take n)

/-- `s.replace(<char class>, '')`: keep only the characters satisfying `p`. -/
def strKeep (p : Char → Bool) (s : String) : String :=
  String.mk (s.toList.filter p)

/-- The character class `[a-zA-Z0-9_-]` used for key sanitization. -/
def wordChar (c : Char) : Bool :=
  ('a' ≤ c && c ≤ 'z') || ('A' ≤ c && c ≤ 'Z') || ('0' ≤ c && c ≤ '9') || c == '_' || c == '-'

/-- Does `l` start with the character sequence `sub`? -/
def leadsWith : List Char → List Char → Bool
  | [], _ => true
  | _ :: _, [] => false
  | a :: as, b :: bs => a == b && leadsWith as bs

/-- Does `l` contain the character sequence `sub` (JS `RegExp.test` for a
literal pattern)? -/
def containsSeq (sub : List Char) : List Char → Bool
  | [] => leadsWith sub []
  | l@(_ :: xs) => leadsWith sub l || containsSeq sub xs

/-- Case-insensitive containment, for the `/javascript:/i`-style checks. -/
def containsSeqCI (sub : String) (l : List Char) : Bool :=
  containsSeq sub.toList (l.map Char.toLower)

/-! ## JavaScript value model -/

/-- A JavaScript number: either finite (modelled as an integer) or
non-finite (NaN / ±Infinity, carrying its `String(...)` form). -/
inductive JSNum where
  | fin (v : Int)
  | nonfin (asString : String)
deriving DecidableEq

/-- A JavaScript value as seen by the sanitizers: string, number, boolean,
`null`, `undefined`, plain object (ordered fields), array, or any other
type (function, symbol, …) carrying its `String(...)` form. -/
inductive JSValue where
  | str (s : String)
  | num (n : JSNum)
  | bool (b : Bool)
  | null
  | undef
  | obj (fields : List (String × JSValue))
  | arr (elems : List JSValue)
  | other (stringified : String)

/-- JS object assignment `o[k] = v`: overwrite in place if the key exists
(keys keep their first-insertion position), otherwise append. -/
def recInsert {α : Type} (fs : List (String × α)) (k : String) (v : α) : List (String × α) :=
  if fs.any (fun p => p.1 == k) then
    fs.map (fun p => if p.1 == k then (k, v) else p)
  else
    fs ++ [(k, v)]

/-! ## Parameter Sanitizer (teamcity-client.ts lines 307-413) -/

mutual

/-- `TeamCityClient.sanitizeParamValue` (lines 332-359): bounds a nested
value.  `null`/`undefined`/other types fall through to
`String(value).substring(0, 1000)`. -/
def sanitizeParamValue : JSValue → JSValue
  | .str s => .str (strCut s 1000)
  | .num (.fin v) => .num (.fin v)
  | .num (.nonfin _) => .num (.fin 0)
  | .bool b => .bool b
  | .obj fs => .obj (sanitizeObjFields 50 [] fs)
  | .arr xs => .arr (sanitizeArrElems 100 xs)
  | .null => .str (strCut "null" 1000)
  | .undef => .str (strCut "undefined" 1000)
  | .other r => .str (strCut r 1000)

/-- `value.slice(0, 100).map(item => this.sanitizeParamValue(item))`,
with the remaining budget threaded as fuel. -/
def sanitizeArrElems : Nat → List JSValue → List JSValue
  | _, [] => []
  | 0, _ :: _ => []
  | n + 1, x :: xs => sanitizeParamValue x :: sanitizeArrElems n xs

/-- The nested-object loop of `sanitizeParamValue`: break once 50 fields
are written; keys only truncated to 100 chars (`String(key).substring(0, 100)`,
no character stripping); every processed entry counts. -/
def sanitizeObjFields : Nat → List (String × JSValue) → List (String × JSValue) →
    List (String × JSValue)
  | _, acc, [] => acc
  | 0, acc, _ :: _ => acc
  | n + 1, acc, (k, v) :: fs =>
      sanitizeObjFields n (recInsert acc (strCut k 100) (sanitizeParamValue v)) fs

end

/-- The loop of `TeamCityClient.sanitizeParams` (lines 310-327): the key is
stripped to `[a-zA-Z0-9_-]` and truncated to 100 chars; an entry is written
(and counts toward the 50-parameter budget) only when the stripped key is
non-empty and the value is neither `undefined` nor `null`. -/
def sanitizeParamsAux : Nat → List (String × JSValue) → List (String × JSValue) →
    List (String × JSValue)
  | _, acc, [] => acc
  | 0, acc, _ :: _ => acc
  | fuel + 1, acc, (k, v) :: rest =>
      let safeKey := strCut (strKeep wordChar k) 100
      match v with
      | .undef => sanitizeParamsAux (fuel + 1) acc rest
      | .null => sanitizeParamsAux (fuel + 1) acc rest
      | _ =>
          if safeKey = "" then sanitizeParamsAux (fuel + 1) acc rest
          else sanitizeParamsAux fuel (recInsert acc safeKey (sanitizeParamValue v)) rest

/-- `TeamCityClient.sanitizeParams`: `undefined` params pass through. -/
def sanitizeParams : Option (List (String × JSValue)) → Option (List (String × JSValue))
  | none => none
  | some ps => some (sanitizeParamsAux 50 [] ps)

/-- The object loop of `TeamCityClient.sanitizePostData` (lines 373-386):
break at 100 fields, keys merely truncated (`String(key).substring(0, 100)`),
values recursively sanitized. -/
def sanitizePostFields : Nat → List (String × JSValue) → List (String × JSValue) →
    List (String × JSValue)
  | _, acc, [] => acc
  | 0, acc, _ :: _ => acc
  | n + 1, acc, (k, v) :: fs =>
      sanitizePostFields n (recInsert acc (strCut k 100) (sanitizeParamValue v)) fs

/-- `TeamCityClient.sanitizePostData` (lines 364-389): `null`/`undefined`
pass through, strings are cut to 10000 chars, non-array objects get the
field loop, and everything else — including top-level arrays, numbers and
booleans — is returned unchanged. -/
def sanitizePostData : JSValue → JSValue
  | .null => .null
  | .undef => .undef
  | .str s => .str (strCut s 10000)
  | .obj fs => .obj (sanitizePostFields 100 [] fs)
  | v => v

/-- The loop of `TeamCityClient.sanitizeQueryParams` (lines 394-413):
`undefined` values are skipped without consuming budget; the key is stripped
to `[a-zA-Z0-9_-]` and cut to 50 chars, the value cut to 500 chars; the pair
is kept only when both are non-empty. -/
def sanitizeQueryParamsAux : Nat → List (String × String) → List (String × Option String) →
    List (String × String)
  | _, acc, [] => acc
  | 0, acc, _ :: _ => acc
  | fuel + 1, acc, (k, v) :: rest =>
      match v with
      | none => sanitizeQueryParamsAux (fuel + 1) acc rest
      | some s =>
          let safeKey := strCut (strKeep wordChar k) 50
          let safeValue := strCut s 500
          if safeKey = "" ∨ safeValue = "" then sanitizeQueryParamsAux (fuel + 1) acc rest
          else sanitizeQueryParamsAux fuel (recInsert acc safeKey safeValue) rest

/-- `TeamCityClient.sanitizeQueryParams`. -/
def sanitizeQueryParams (ps : List (String × Option String)) : List (String × String) :=
  sanitizeQueryParamsAux 20 [] ps

/-! ## Locator Builder (teamcity-client.ts lines 248-260) -/

/-- A value of the TypeScript type `string | number | boolean | undefined`
accepted by `buildLocator` (plus `null`, which the runtime filter also
checks for). -/
inductive LocVal where
  | str (s : String)
  | num (n : JSNum)
  | bool (b : Bool)
  | undef
  | null
deriving DecidableEq

/-- JS `String(value)` on a locator value. -/
def locValToString : LocVal → String
  | .str s => s
  | .num (.fin v) => toString v
  | .num (.nonfin r) => r
  | .bool true => "true"
  | .bool false => "false"
  | .undef => "undefined"
  | .null => "null"

/-- The filter `value !== undefined && value !== null && value !== ''`
(strict equality: only the empty string is `=== ''`). -/
def locValKept : LocVal → Bool
  | .undef => false
  | .null => false
  | .str s => s ≠ ""
  | _ => true

/-- The character class `[,;()[\]{}'"\\]` removed from locator values. -/
def locDropChar (c : Char) : Bool :=
  c == ',' || c == ';' || c == '(' || c == ')' || c == '[' || c == ']' ||
  c == '{' || c == '}' || c == '\'' || c == '"' || c == '\\'

/-- One `key:value` locator part: key stripped to `[a-zA-Z0-9_-]` and cut
to 50 chars, value stripped of `locDropChar`s and cut to 200 chars. -/
def locPart (k : String) (v : LocVal) : String :=
  strCut (strKeep wordChar k) 50 ++ ":" ++
    strCut (strKeep (fun c => !locDropChar c) (locValToString v)) 200

/-- The sanitized part list of `TeamCityClient.buildLocator`: filter,
map to `key:value`, `slice(0, 20)`. -/
def buildLocatorParts (ps : List (String × LocVal)) : List String :=
  ((ps.filter (fun kv => locValKept kv.2)).map (fun kv => locPart kv.1 kv.2)).take 20

/-- `TeamCityClient.buildLocator`: join the sanitized parts with commas. -/
def buildLocator (ps : List (String × LocVal)) : String :=
  String.intercalate "," (buildLocatorParts ps)

/-! ## Endpoint Validator (teamcity-client.ts lines 265-305) -/

/-- The injection characters forbidden in the path segment:
`< > ' " ; & | backtick $ ( )`. -/
def pathBadChar (c : Char) : Bool :=
  c == '<' || c == '>' || c == '\'' || c == '"' || c == ';' || c == '&' ||
  c == '|' || c.toNat == 96 || c == '$' || c == '(' || c == ')'

/-- The injection characters forbidden in the query segment:
`< > ' " backtick ; | $` (`= & ?` are allowed there). -/
def queryBadChar (c : Char) : Bool :=
  c == '<' || c == '>' || c == '\'' || c == '"' || c.toNat == 96 ||
  c == ';' || c == '|' || c == '$'

/-- `dangerousPathPatterns.some(pattern => pattern.test(path))`:
path traversal `..`, an injection character, or a `javascript:`/`data:`/
`file:` scheme anywhere in the segment (the regexes are unanchored). -/
def dangerousPathSeg (p : String) : Bool :=
  containsSeq "..".toList p.toList ||
  p.toList.any pathBadChar ||
  containsSeqCI "javascript:" p.toList ||
  containsSeqCI "data:" p.toList ||
  containsSeqCI "file:" p.toList

/-- `dangerousQueryPatterns.some(pattern => pattern.test(queryString))`. -/
def dangerousQuerySeg (q : String) : Bool :=
  q.toList.any queryBadChar ||
  containsSeqCI "javascript:" q.toList ||
  containsSeqCI "data:" q.toList ||
  containsSeqCI "file:" q.toList

/-- The path segment: `endpoint.split('?')[0]`, the characters before the
first `?`. -/
def pathSegOf (endpoint : String) : String :=
  String.mk (endpoint.toList.takeWhile (fun c => c != '?'))

/-- The query segment: `endpoint.split('?')[1]`, the characters between
the first and second `?`; JS falsiness folds `undefined` (no `?` at all)
and `""` together, and segments past the second `?` are discarded by the
destructuring. -/
def querySegOf (endpoint : String) : String :=
  String.mk (((endpoint.toList.dropWhile (fun c => c != '?')).drop 1).takeWhile
    (fun c => c != '?'))

/-- `TeamCityClient.validateEndpoint`: `none` means the endpoint is
accepted, `some msg` models `throw new Error(msg)`. -/
def validateEndpoint (endpoint : String) : Option String :=
  if endpoint = "" then some "Invalid endpoint: must be a non-empty string"
  else if 500 < endpoint.length then some "Invalid endpoint: too long"
  else
    let path := pathSegOf endpoint
    let query := querySegOf endpoint
    if path ≠ "" && dangerousPathSeg path then
      some "Invalid endpoint: contains unsafe characters in path"
    else if query ≠ "" && dangerousQuerySeg query then
      some "Invalid endpoint: contains unsafe characters in query string"
    else
      none

/-! ## Secure Error Translator (utils/security.ts) -/

/-- The closed `ErrorCodes` enumeration of security.ts. -/
inductive ErrCode where
  | validationError
  | resourceNotFound
  | authenticationFailed
  | externalServiceError
  | internalError
  | configurationError
deriving DecidableEq

/-- A thrown JavaScript value as the error handlers discriminate it: a
`ZodError` (with its issue messages), an `Error` instance (with its
`message` and, for axios errors, an optional `response.status`), or a
non-`Error` value. -/
inductive ThrownVal where
  | zodErr (issues : List String)
  | errObj (message : String) (respStatus : Option Nat)
  | nonError (stringified : String)
deriving DecidableEq

/-- `error.response?.status` as read by the catch branches. -/
def respStatusOf : ThrownVal → Option Nat
  | .errObj _ st => st
  | _ => none

/-- The `message` property of the original exception (`ZodError.message`
is the JSON of the issues; non-`Error` values have none, modelled as their
stringification). -/
def thrownMessage : ThrownVal → String
  | .zodErr issues => String.intercalate "," issues
  | .errObj m _ => m
  | .nonError r => r

/-- The `{code, message, requestId}` object built by `createSafeError`. -/
structure SafeError where
  code : ErrCode
  message : String
  requestId : String
deriving DecidableEq

/-- `createSafeError` (security.ts lines 23-42): a `ZodError` gets a
reconstructed `Validation failed: …` message and the `VALIDATION_ERROR`
code; any other `Error` instance has its `message` copied verbatim; other
values get the generic message.  `Date.now()` is passed as `now`. -/
def createSafeError (e : ThrownVal) (operation : String) (now : Nat)
    (code : ErrCode) : SafeError :=
  match e with
  | .zodErr issues =>
      { code := .validationError
        message := "Validation failed: " ++ String.intercalate ", " issues
        requestId := operation ++ "_" ++ toString now }
  | .errObj msg _ =>
      { code := code, message := msg, requestId := operation ++ "_" ++ toString now }
  | .nonError _ =>
      { code := code, message := "An error occurred"
        requestId := operation ++ "_" ++ toString now }

/-- `handleHttpError` (security.ts lines 48-68): status-to-code mapping
401 / 404 / ≥500, defaulting to `EXTERNAL_SERVICE_ERROR` (also when the
error carries no response). -/
def handleHttpError (e : ThrownVal) (operation : String) (now : Nat) : SafeError :=
  match respStatusOf e with
  | some status =>
      if status == 401 then createSafeError e operation now .authenticationFailed
      else if status == 404 then createSafeError e operation now .resourceNotFound
      else if 500 ≤ status then createSafeError e operation now .externalServiceError
      else createSafeError e operation now .externalServiceError
  | none => createSafeError e operation now .externalServiceError

/-- `TeamCityClient.handleSecureError` (lines 95-112): translate via
`handleHttpError`, then `throw new Error(safeError.message)` — a plain
`Error` carrying no `response`/`status`. -/
def handleSecureError (e : ThrownVal) (now : Nat) : ThrownVal :=
  .errObj (handleHttpError e "teamcity_api_request" now).message none

/-! ## Transport (teamcity-client.ts lines 44-62, 165-221) -/

/-- What the network does for one request: an HTTP response with a status
code, or a network-level failure (DNS, timeout, …) with no response. -/
inductive TransportOutcome where
  | httpResp (status : Nat) (body : String)
  | netFail (message : String)
deriving DecidableEq

/-- axios settling a request under
`validateStatus: (status) => status < 600`: every response whose status is
below 600 resolves; network failures reject with no `response`. -/
def axiosSettle (o : TransportOutcome) : Except ThrownVal String :=
  match o with
  | .httpResp status body =>
      if status < 600 then .ok body
      else .error (.errObj ("Request failed with status code " ++ toString status) (some status))
  | .netFail msg => .error (.errObj msg none)

/-- One request through the configured client: axios settles it, and on
rejection the response interceptor runs `handleSecureError`. -/
def clientRawRequest (o : TransportOutcome) (now : Nat) : Except ThrownVal String :=
  match axiosSettle o with
  | .ok body => .ok body
  | .error e => .error (handleSecureError e now)

/-- A performed network call, for counting. -/
structure NetCall where
  method : String
  endpoint : String
deriving DecidableEq

/-- `TeamCityClient.get` (lines 165-171): validate the endpoint before any
network I/O, sanitize the params, then issue the request.  Returns the
result together with the list of network calls actually made. -/
def clientGet (endpoint : String) (params : Option (List (String × JSValue)))
    (o : TransportOutcome) (now : Nat) : Except ThrownVal String × List NetCall :=
  match validateEndpoint endpoint with
  | some msg => (.error (.errObj msg none), [])
  | none =>
      let _ := sanitizeParams params
      (clientRawRequest o now, [⟨"GET", endpoint⟩])

/-- `TeamCityClient.post` (lines 176-182). -/
def clientPost (endpoint : String) (data : JSValue)
    (o : TransportOutcome) (now : Nat) : Except ThrownVal String × List NetCall :=
  match validateEndpoint endpoint with
  | some msg => (.error (.errObj msg none), [])
  | none =>
      let _ := sanitizePostData data
      (clientRawRequest o now, [⟨"POST", endpoint⟩])

/-- `TeamCityClient.delete` (lines 187-191): resolves `true` on success. -/
def clientDelete (endpoint : String)
    (o : TransportOutcome) (now : Nat) : Except ThrownVal Bool × List NetCall :=
  match validateEndpoint endpoint with
  | some msg => (.error (.errObj msg none), [])
  | none =>
      match clientRawRequest o now with
      | .ok _ => (.ok true, [⟨"DELETE", endpoint⟩])
      | .error e => (.error e, [⟨"DELETE", endpoint⟩])

/-- `Bearer\s+[a-zA-Z0-9_-]+` → `Bearer [REDACTED]` and
`password[=:]\s*[^\s;,)]+` → `password=[REDACTED]` scanners used by
`sanitizeTextContent`; `\s` approximated by ASCII whitespace. -/
def jsSpace (c : Char) : Bool :=
  c == ' ' || c == '\t' || c == '\n' || c == '\r' || c.toNat == 11 || c.toNat == 12

/-- Case-insensitive literal match of `word` at the head of `l`, returning
the rest. -/
def eatCI (word : List Char) (l : List Char) : Option (List Char) :=
  match word, l with
  | [], rest => some rest
  | _ :: _, [] => none
  | w :: ws, c :: cs => if c.toLower == w.toLower then eatCI ws cs else none

/-- Match `Bearer\s+[a-zA-Z0-9_-]+` at the head of `l` (greedy, as the JS
regex is), returning the unconsumed tail. -/
def matchBearerAt (l : List Char) : Option (List Char) :=
  match eatCI "bearer".toList l with
  | none => none
  | some rest =>
      let ws := rest.takeWhile jsSpace
      let afterWs := rest.dropWhile jsSpace
      let tok := afterWs.takeWhile wordChar
      if ws.isEmpty || tok.isEmpty then none
      else some (afterWs.dropWhile wordChar)

/-- Match `password[=:]\s*[^\s;,)]+` at the head of `l`. -/
def matchPasswordAt (l : List Char) : Option (List Char) :=
  match eatCI "password".toList l with
  | none => none
  | some rest =>
      match rest with
      | c :: cs =>
          if c == '=' || c == ':' then
            let afterWs := cs.dropWhile jsSpace
            let tok := afterWs.takeWhile
              (fun c => !(jsSpace c || c == ';' || c == ',' || c == ')'))
            if tok.isEmpty then none
            else some (afterWs.dropWhile
              (fun c => !(jsSpace c || c == ';' || c == ',' || c == ')')))
          else none
      | [] => none

/-- Global left-to-right replace driven by a matcher; fuel bounds the scan
(initialized to the text length, which the matcher can never exceed since
every match consumes at least one character). -/
def redactScan (m : List Char → Option (List Char)) (patch : List Char) :
    Nat → List Char → List Char
  | 0, l => l
  | _ + 1, [] => []
  | fuel + 1, c :: rest =>
      match m (c :: rest) with
      | some remaining => patch ++ redactScan m patch fuel remaining
      | none => c :: redactScan m patch fuel rest

/-- `TeamCityClient.sanitizeTextContent` (lines 427-437): cut to 1 MB, then
redact bearer tokens and passwords. -/
def sanitizeTextContent (s : String) : String :=
  let cut := (strCut s (1024 * 1024)).toList
  let noBearer := redactScan matchBearerAt "Bearer [REDACTED]".toList cut.length cut
  String.mk (redactScan matchPasswordAt "password=[REDACTED]".toList noBearer.length noBearer)

/-- `TeamCityClient.getText` (lines 196-207): validate, fetch as text,
sanitize the text content. -/
def clientGetText (endpoint : String)
    (o : TransportOutcome) (now : Nat) : Except ThrownVal String × List NetCall :=
  match validateEndpoint endpoint with
  | some msg => (.error (.errObj msg none), [])
  | none =>
      match clientRawRequest o now with
      | .ok body => (.ok (sanitizeTextContent body), [⟨"GET", endpoint⟩])
      | .error e => (.error e, [⟨"GET", endpoint⟩])

/-- `TeamCityClient.getBinary` (lines 212-221); the body stands for the
received bytes. -/
def clientGetBinary (endpoint : String)
    (o : TransportOutcome) (now : Nat) : Except ThrownVal String × List NetCall :=
  match validateEndpoint endpoint with
  | some msg => (.error (.errObj msg none), [])
  | none => (clientRawRequest o now, [⟨"GET", endpoint⟩])

/-! ## Cancel build (teamcity-client.ts lines 514-565) -/

/-- One invocation of a client method by `cancelBuild`. -/
inductive CancelApiCall where
  | fetchBuild
  | queueDelete
  | cancelPost
deriving DecidableEq, BEq

/-- The outcomes of the settled calls `cancelBuild` can make: the state
field of the first `getBuild`, the state field of the re-fetch in the
running-build catch, the `this.delete('/buildQueue/id:…')` result and the
`this.post('/builds/id:…', …)` result. -/
structure CancelEnv where
  firstFetch : Except ThrownVal String
  recheckFetch : Except ThrownVal String
  queueDeleteRes : Except ThrownVal Bool
  cancelPostRes : Except ThrownVal String

/-- The JSON body posted when cancelling a running build:
`{comment: comment || 'Build cancelled via MCP', readdIntoQueue: false}`. -/
def cancelPostBody (comment : Option String) : JSValue :=
  .obj [("comment", .str (match comment with
          | some c => if c = "" then "Build cancelled via MCP" else c
          | none => "Build cancelled via MCP")),
        ("readdIntoQueue", .bool false)]

/-- The values `cancelBuild` can resolve with: the bare boolean of a queue
delete, the success object after a cancel POST, the success object of the
finished-in-race check, or the `success: false` not-applicable object. -/
inductive CancelOutcome where
  | queueDeleted (resolved : Bool)
  | cancelled (message : String)
  | noLongerRunning (message : String)
  | notApplicable (message : String)
deriving DecidableEq

/-- `TeamCityClient.cancelBuild`, with its nested try/catch structure.
Two subtleties of the source are preserved faithfully:
the queued branch does `return this.delete(...)` WITHOUT `await`, so a
rejection of that delete is NOT caught by the outer catch; and the
`throw cancelError` of the still-running branch IS caught by the outer
catch, which attempts a queue delete before re-throwing. -/
def cancelBuildModel (buildId : String) (env : CancelEnv) :
    Except ThrownVal CancelOutcome × List CancelApiCall :=
  match env.firstFetch with
  | .ok st =>
      if st = "queued" then
        -- `return this.delete(...)` (no await): passes through untouched
        match env.queueDeleteRes with
        | .ok b => (.ok (.queueDeleted b), [.fetchBuild, .queueDelete])
        | .error e => (.error e, [.fetchBuild, .queueDelete])
      else if st = "running" then
        match env.cancelPostRes with
        | .ok _ =>
            (.ok (.cancelled ("Build " ++ buildId ++ " has been cancelled")),
             [.fetchBuild, .cancelPost])
        | .error cancelErr =>
            match env.recheckFetch with
            | .ok st2 =>
                if st2 ≠ "running" then
                  (.ok (.noLongerRunning
                     ("Build " ++ buildId ++ " is no longer running (state: " ++ st2 ++ ")")),
                   [.fetchBuild, .cancelPost, .fetchBuild])
                else
                  -- `throw cancelError` lands in the outer catch: queue delete,
                  -- re-throwing the original error only if that also fails
                  match env.queueDeleteRes with
                  | .ok b =>
                      (.ok (.queueDeleted b),
                       [.fetchBuild, .cancelPost, .fetchBuild, .queueDelete])
                  | .error _ =>
                      (.error cancelErr,
                       [.fetchBuild, .cancelPost, .fetchBuild, .queueDelete])
            | .error fetchErr =>
                -- the re-fetch itself rejected: outer catch with that error
                match env.queueDeleteRes with
                | .ok b =>
                    (.ok (.queueDeleted b),
                     [.fetchBuild, .cancelPost, .fetchBuild, .queueDelete])
                | .error _ =>
                    (.error fetchErr,
                     [.fetchBuild, .cancelPost, .fetchBuild, .queueDelete])
      else
        (.ok (.notApplicable
           ("Build " ++ buildId ++ " is not running or queued (state: " ++ st ++ ")")),
         [.fetchBuild])
  | .error e =>
      -- initial fetch failed: try the queue delete anyway, else re-throw
      match env.queueDeleteRes with
      | .ok b => (.ok (.queueDeleted b), [.fetchBuild, .queueDelete])
      | .error _ => (.error e, [.fetchBuild, .queueDelete])

/-! ## Build log fetch (teamcity-client.ts lines 574-658) -/

/-- The two endpoints `fetchBuildLog` can hit. -/
inductive LogAttempt where
  | directDownload
  | apiLogContent
deriving DecidableEq, BEq

/-- The shapes `fetchBuildLog` can resolve with: a tail page with metadata,
the full log with metadata (primary success), the bare `{content, buildId}`
of a full-mode fallback success, or the structured not-available object. -/
inductive LogResult where
  | tailResult (lines : List String) (startLine : Nat) (hasMore : Bool) (totalLines : Nat)
  | fullResult (content : String) (totalLines : Nat)
  | fallbackFull (content : String)
  | notAvailable
deriving DecidableEq

/-- The tail computation shared by both endpoints: `lines.slice(-lineCount)`
with `startLine = Math.max(0, lines.length - lineCount)`,
`hasMore = lines.length > lineCount`. -/
def logTailOf (text : String) (lineCount : Nat) : LogResult :=
  let lines := text.splitOn "\n"
  .tailResult (lines.drop (lines.length - lineCount))
    (lines.length - lineCount) (decide (lineCount < lines.length)) lines.length

/-- `tail && lineCount` with JS falsiness (`lineCount` of 0 or `undefined`
is falsy). -/
def tailMode (tail : Bool) (lineCount : Option Nat) : Bool :=
  tail && (match lineCount with | some n => n ≠ 0 | none => false)

/-- `TeamCityClient.fetchBuildLog`: try the direct download endpoint (a raw
`this.client.get` against the base URL with `/app/rest` stripped), fall
back to `getText('/builds/id:…/logs/content')` on any failure; if both
fail, return the structured not-available object when either error has
`response.status === 404`, otherwise re-throw the primary error. -/
def fetchBuildLogModel (tail : Bool) (lineCount : Option Nat)
    (direct fallbackRes : Except ThrownVal String) :
    Except ThrownVal LogResult × List LogAttempt :=
  match direct with
  | .ok fullLog =>
      if tailMode tail lineCount then
        (.ok (logTailOf fullLog (lineCount.getD 0)), [.directDownload])
      else
        (.ok (.fullResult fullLog (fullLog.splitOn "\n").length), [.directDownload])
  | .error e =>
      match fallbackRes with
      | .ok text =>
          if tailMode tail lineCount then
            (.ok (logTailOf text (lineCount.getD 0)), [.directDownload, .apiLogContent])
          else
            (.ok (.fallbackFull text), [.directDownload, .apiLogContent])
      | .error fallbackErr =>
          if respStatusOf e == some 404 || respStatusOf fallbackErr == some 404 then
            (.ok .notAvailable, [.directDownload, .apiLogContent])
          else
            (.error e, [.directDownload, .apiLogContent])

/-- `fetchBuildLog` composed with the real transport pipeline: the direct
attempt is a raw client request (settled through the interceptor), the
fallback goes through `getText` (endpoint validation included). -/
def fetchBuildLogPiped (buildId : String) (tail : Bool) (lineCount : Option Nat)
    (oDirect oFallback : TransportOutcome) (now : Nat) :
    Except ThrownVal LogResult × List LogAttempt :=
  fetchBuildLogModel tail lineCount
    (clientRawRequest oDirect now)
    (clientGetText ("/builds/id:" ++ buildId ++ "/logs/content") oFallback now).1

/-! ## The catch branches keyed on `error.response.status` -/

/-- The catch of `downloadArtifact` (lines 753-758): 404 becomes a domain
error, anything else is re-thrown unchanged. -/
def downloadArtifactCatch (buildId path : String) (e : ThrownVal) : ThrownVal :=
  if respStatusOf e == some 404 then
    .errObj ("Artifact not found: " ++ path ++ " in build " ++ buildId) none
  else e

/-- The catch of `getArtifactMetadata` (lines 782-798): 404 resolves with
an `exists: false` object, anything else is re-thrown. -/
def getArtifactMetadataCatch (e : ThrownVal) : Except ThrownVal Bool :=
  if respStatusOf e == some 404 then .ok false else .error e

/-- The catch of `listProjectHierarchy` (lines 841-846). -/
def listProjectHierarchyCatch (startProjectId : String) (e : ThrownVal) : ThrownVal :=
  if respStatusOf e == some 404 then
    .errObj ("Project not found: " ++ startProjectId) none
  else e

/-- The catch of `getCompatibleAgentsForBuildType` (lines 869-874). -/
def compatibleAgentsCatch (buildTypeId : String) (e : ThrownVal) : ThrownVal :=
  if respStatusOf e == some 404 then
    .errObj ("Build configuration not found: " ++ buildTypeId) none
  else e

/-! ## Build listing locators (index.ts lines 269-290,
teamcity-client.ts lines 459-467 and 660-680) -/

/-- JS truthiness for an optional string parameter (`undefined` and `""`
are falsy). -/
def optTruthy : Option String → Bool
  | none => false
  | some s => s ≠ ""

/-- The parameter bag of the tool-layer `listBuilds` handler. -/
structure ListBuildsParams where
  status : Option String
  state : Option String
  projectId : Option String
  branch : Option String
  since : Option String
  count : Option Int

/-- The locator parts assembled by the tool-layer `listBuilds`
(index.ts lines 271-277): optional filters in source order, then always
`count:${params.count || 5}` (a falsy caller count, 0 included, falls back
to 5). -/
def indexListBuildsParts (p : ListBuildsParams) : List String :=
  (if optTruthy p.status then ["status:" ++ p.status.getD ""] else []) ++
  (if optTruthy p.state then ["state:" ++ p.state.getD ""] else []) ++
  (if optTruthy p.projectId then ["project:(id:" ++ p.projectId.getD "" ++ ")"] else []) ++
  (if optTruthy p.branch then ["branch:" ++ p.branch.getD ""] else []) ++
  (if optTruthy p.since then ["sinceDate:" ++ p.since.getD ""] else []) ++
  ["count:" ++ toString (match p.count with
    | some n => if n = 0 then (5 : Int) else n
    | none => 5)]

/-- The locator the tool-layer `listBuilds` sends. -/
def indexListBuildsLocator (p : ListBuildsParams) : String :=
  String.intercalate "," (indexListBuildsParts p)

/-- The parameter bag understood by `TeamCityClient.listBuilds` and
`buildHighLevelLocator` (caller-supplied raw `locator` plus the structured
dimensions). -/
structure ClientListParams where
  locator : Option String
  projectId : Option String
  buildTypeId : Option String
  status : Option String
  count : Option Int
  state : Option String
  branchName : Option String
  agentName : Option String
  user : Option String
  sinceDate : Option String
  untilDate : Option String
  tags : Option String
  start : Option Int

/-- JS truthiness for an optional number (0 is falsy). -/
def intTruthy : Option Int → Bool
  | none => false
  | some n => n ≠ 0

/-- The parts pushed by `TeamCityClient.buildHighLevelLocator`
(lines 660-680): every dimension appears only when the caller supplied a
truthy value — no `count` default is added here. -/
def buildHighLevelLocatorParts (p : ClientListParams) : List String :=
  (if optTruthy p.projectId then ["project:(id:" ++ p.projectId.getD "" ++ ")"] else []) ++
  (if optTruthy p.buildTypeId then ["buildType:(id:" ++ p.buildTypeId.getD "" ++ ")"] else []) ++
  (if optTruthy p.status then ["status:" ++ p.status.getD ""] else []) ++
  (if intTruthy p.count then ["count:" ++ toString ((p.count).getD 0)] else []) ++
  (if optTruthy p.state then ["state:" ++ p.state.getD ""] else []) ++
  (if optTruthy p.branchName then ["branch:" ++ p.branchName.getD ""] else []) ++
  (if optTruthy p.agentName then ["agent:(name:" ++ p.agentName.getD "" ++ ")"] else []) ++
  (if optTruthy p.user then ["user:(username:" ++ p.user.getD "" ++ ")"] else []) ++
  (if optTruthy p.sinceDate then ["sinceDate:" ++ p.sinceDate.getD ""] else []) ++
  (if optTruthy p.untilDate then ["untilDate:" ++ p.untilDate.getD ""] else []) ++
  (if optTruthy p.tags then ["tags:" ++ p.tags.getD ""] else []) ++
  (if intTruthy p.start then ["start:" ++ toString ((p.start).getD 0)] else [])

/-- `TeamCityClient.buildHighLevelLocator`. -/
def buildHighLevelLocator (p : ClientListParams) : String :=
  String.intercalate "," (buildHighLevelLocatorParts p)

/-- The locator `TeamCityClient.listBuilds` sends (line 462):
`params.locator || this.buildHighLevelLocator(params)`. -/
def clientListBuildsLocator (p : ClientListParams) : String :=
  if optTruthy p.locator then p.locator.getD "" else buildHighLevelLocator p

/-! ## The boundedness predicate for sanitized values -/

mutual

/-- A value is within the sanitizer's advertised bounds: strings ≤ 1000
chars, numbers finite, nested objects ≤ 50 fields, arrays ≤ 100 elements,
recursively. -/
def valueOK : JSValue → Bool
  | .str s => decide (s.length ≤ 1000)
  | .num (.fin _) => true
  | .num (.nonfin _) => false
  | .bool _ => true
  | .null => false
  | .undef => false
  | .other _ => false
  | .obj fs => decide (fs.length ≤ 50) && fieldsOK fs
  | .arr xs => decide (xs.length ≤ 100) && elemsOK xs

/-- All array elements within bounds. -/
def elemsOK : List JSValue → Bool
  | [] => true
  | x :: xs => valueOK x && elemsOK xs

/-- All object field values within bounds. -/
def fieldsOK : List (String × JSValue) → Bool
  | [] => true
  | (_, v) :: fs => valueOK v && fieldsOK fs

end

/-! ## Helper lemmas -/

theorem strCut_toList (s : String) (n : Nat) : (strCut s n).toList = s.toList.take n := rfl

theorem strKeep_toList (p : Char → Bool) (s : String) :
    (strKeep p s).toList = s.toList.filter p := rfl

theorem strCut_length (s : String) (n : Nat) : (strCut s n).length ≤ n := by
  show (s.toList.take n).length ≤ n
  simp [List.length_take]

theorem strKeep_chars (p : Char → Bool) (s : String) :
    ∀ c ∈ (strKeep p s).toList, p c = true := by
  intro c hc
  rw [strKeep_toList] at hc
  exact (List.mem_filter.mp hc).2

theorem strCut_strKeep_chars (p : Char → Bool) (s : String) (n : Nat) :
    ∀ c ∈ (strCut (strKeep p s) n).toList, p c = true := by
  intro c hc
  rw [strCut_toList] at hc
  exact strKeep_chars p s c (List.take_subset _ _ hc)

theorem recInsert_length {α : Type} (fs : List (String × α)) (k : String) (v : α) :
    (recInsert fs k v).length ≤ fs.length + 1 := by
  unfold recInsert
  split
  · simp
  · simp

/-- `recInsert` preserves any per-key property as long as the new key has
it. -/
theorem recInsert_keys {α : Type} (P : String → Prop) (fs : List (String × α))
    (k : String) (v : α) (hfs : ∀ kv ∈ fs, P kv.1) (hk : P k) :
    ∀ kv ∈ recInsert fs k v, P kv.1 := by
  intro kv hkv
  unfold recInsert at hkv
  split at hkv
  · rcases List.mem_map.mp hkv with ⟨p, hp, hpe⟩
    by_cases h : p.1 == k
    · simp [h] at hpe
      rw [← hpe]
      exact hk
    · simp [h] at hpe
      rw [← hpe]
      exact hfs p hp
  · rcases List.mem_append.mp hkv with h | h
    · exact hfs kv h
    · simp at h
      rw [h]
      exact hk

theorem fieldsOK_append (a b : List (String × JSValue)) :
    fieldsOK (a ++ b) = (fieldsOK a && fieldsOK b) := by
  induction a with
  | nil => simp [fieldsOK]
  | cons kv rest ih =>
      rcases kv with ⟨k, v⟩
      simp [fieldsOK, ih, Bool.and_assoc]

theorem fieldsOK_map_replace (k : String) (v : JSValue) (hv : valueOK v = true) :
    ∀ (fs : List (String × JSValue)), fieldsOK fs = true →
      fieldsOK (fs.map (fun p => if p.1 == k then (k, v) else p)) = true := by
  intro fs
  induction fs with
  | nil => simp [fieldsOK]
  | cons kv rest ih =>
      rcases kv with ⟨k', v'⟩
      intro hfs
      simp [fieldsOK] at hfs
      cases hb : k' == k with
      | true =>
          simp only [List.map_cons, hb]
          simp [fieldsOK, hv]
          simpa using ih hfs.2
      | false =>
          simp only [List.map_cons, hb]
          simp [fieldsOK, hfs.1]
          simpa using ih hfs.2

/-- `recInsert` preserves `fieldsOK` when the inserted value is in
bounds. -/
theorem recInsert_fieldsOK (fs : List (String × JSValue)) (k : String) (v : JSValue)
    (hfs : fieldsOK fs = true) (hv : valueOK v = true) :
    fieldsOK (recInsert fs k v) = true := by
  unfold recInsert
  split
  · exact fieldsOK_map_replace k v hv fs hfs
  · rw [fieldsOK_append]
    simp [hfs, fieldsOK, hv]

/-- `sanitizeArrElems` keeps at most `n` elements and, if every sanitized
element is in bounds, so is the result list. -/
theorem sanitizeArrElems_spec (n : Nat) (xs : List JSValue)
    (h : ∀ x ∈ xs, valueOK (sanitizeParamValue x) = true) :
    (sanitizeArrElems n xs).length ≤ n ∧ elemsOK (sanitizeArrElems n xs) = true := by
  induction xs generalizing n with
  | nil => cases n <;> simp [sanitizeArrElems, elemsOK]
  | cons x rest ih =>
      cases n with
      | zero => simp [sanitizeArrElems, elemsOK]
      | succ m =>
          have hx := h x (List.mem_cons_self x rest)
          have hrest : ∀ y ∈ rest, valueOK (sanitizeParamValue y) = true :=
            fun y hy => h y (List.mem_cons_of_mem x hy)
          rcases ih m hrest with ⟨hlen, hok⟩
          refine ⟨?_, ?_⟩
          · simpa [sanitizeArrElems] using hlen
          · simp [sanitizeArrElems, elemsOK, hx, hok]

/-- `sanitizeObjFields` writes at most `n` more fields than the
accumulator and preserves boundedness of the field values. -/
theorem sanitizeObjFields_spec (fs : List (String × JSValue))
    (h : ∀ kv ∈ fs, valueOK (sanitizeParamValue kv.2) = true) :
    ∀ (n : Nat) (acc : List (String × JSValue)),
      (sanitizeObjFields n acc fs).length ≤ acc.length + n ∧
      (fieldsOK acc = true → fieldsOK (sanitizeObjFields n acc fs) = true) := by
  induction fs with
  | nil => intro n acc; cases n <;> simp [sanitizeObjFields]
  | cons kv rest ih =>
      intro n acc
      rcases kv with ⟨k, v⟩
      cases n with
      | zero => simp [sanitizeObjFields]
      | succ m =>
          have hv := h (k, v) (List.mem_cons_self _ rest)
          have hrest : ∀ kv ∈ rest, valueOK (sanitizeParamValue kv.2) = true :=
            fun kv hkv => h kv (List.mem_cons_of_mem _ hkv)
          rcases ih hrest m (recInsert acc (strCut k 100) (sanitizeParamValue v)) with
            ⟨hlen, hok⟩
          refine ⟨?_, ?_⟩
          · calc (sanitizeObjFields (m + 1) acc ((k, v) :: rest)).length
                = (sanitizeObjFields m
                    (recInsert acc (strCut k 100) (sanitizeParamValue v)) rest).length := rfl
              _ ≤ (recInsert acc (strCut k 100) (sanitizeParamValue v)).length + m := hlen
              _ ≤ (acc.length + 1) + m := by
                  exact Nat.add_le_add_right (recInsert_length _ _ _) m
              _ = acc.length + (m + 1) := by omega
          · intro hacc
            show fieldsOK (sanitizeObjFields m
              (recInsert acc (strCut k 100) (sanitizeParamValue v)) rest) = true
            exact hok (recInsert_fieldsOK acc _ _ hacc hv)

/-- Every value produced by `sanitizeParamValue` is within the advertised
bounds. -/
theorem sanitizeParamValue_ok : ∀ (v : JSValue), valueOK (sanitizeParamValue v) = true
  | .str s => by
      simp [sanitizeParamValue, valueOK, strCut_length]
  | .num (.fin v) => rfl
  | .num (.nonfin r) => rfl
  | .bool b => rfl
  | .null => by simp [sanitizeParamValue, valueOK, strCut_length]
  | .undef => by simp [sanitizeParamValue, valueOK, strCut_length]
  | .other r => by simp [sanitizeParamValue, valueOK, strCut_length]
  | .obj fs => by
      have h : ∀ kv ∈ fs, valueOK (sanitizeParamValue kv.2) = true := by
        intro kv hkv
        exact sanitizeParamValue_ok kv.2
      rcases sanitizeObjFields_spec fs h 50 [] with ⟨hlen, hok⟩
      simp only [sanitizeParamValue, valueOK, Bool.and_eq_true, decide_eq_true_eq]
      exact ⟨by simpa using hlen, hok rfl⟩
  | .arr xs => by
      have h : ∀ x ∈ xs, valueOK (sanitizeParamValue x) = true := by
        intro x hx
        exact sanitizeParamValue_ok x
      rcases sanitizeArrElems_spec 100 xs h with ⟨hlen, hok⟩
      simp only [sanitizeParamValue, valueOK, Bool.and_eq_true, decide_eq_true_eq]
      exact ⟨hlen, hok⟩
termination_by v => sizeOf v
decreasing_by
  · have h1 := List.sizeOf_lt_of_mem hkv
    rcases kv with ⟨k', v'⟩
    simp at h1 ⊢
    omega
  · have h1 := List.sizeOf_lt_of_mem hx
    simp
    omega

/-- A key as produced by the stripping sanitizers: non-empty, at most 100
chars, only `[a-zA-Z0-9_-]`. -/
def goodKey (k : String) : Prop :=
  k ≠ "" ∧ k.length ≤ 100 ∧ ∀ c ∈ k.toList, wordChar c = true

/-- The values skipped by the `sanitizeParams` loop. -/
def isSkipVal : JSValue → Bool
  | .undef => true
  | .null => true
  | _ => false

theorem sanitizeParamsAux_cons_eq (m : Nat) (acc : List (String × JSValue))
    (k : String) (v : JSValue) (rest : List (String × JSValue)) :
    sanitizeParamsAux (m + 1) acc ((k, v) :: rest) =
      if isSkipVal v then sanitizeParamsAux (m + 1) acc rest
      else if strCut (strKeep wordChar k) 100 = "" then sanitizeParamsAux (m + 1) acc rest
      else sanitizeParamsAux m
        (recInsert acc (strCut (strKeep wordChar k) 100) (sanitizeParamValue v)) rest := by
  cases v <;> rfl

/-- The `sanitizeParams` loop keeps at most `fuel` additional entries,
produces only bounded values, and only stripped non-empty keys. -/
theorem sanitizeParamsAux_spec :
    ∀ (ps : List (String × JSValue)) (fuel : Nat) (acc : List (String × JSValue)),
      (sanitizeParamsAux fuel acc ps).length ≤ acc.length + fuel ∧
      (fieldsOK acc = true → fieldsOK (sanitizeParamsAux fuel acc ps) = true) ∧
      ((∀ kv ∈ acc, goodKey kv.1) → ∀ kv ∈ sanitizeParamsAux fuel acc ps, goodKey kv.1) := by
  intro ps
  induction ps with
  | nil =>
      intro fuel acc
      cases fuel <;> simp [sanitizeParamsAux]
  | cons kv rest ih =>
      intro fuel acc
      rcases kv with ⟨k, v⟩
      cases fuel with
      | zero => simp [sanitizeParamsAux]
      | succ m =>
          rw [sanitizeParamsAux_cons_eq]
          by_cases hskip : isSkipVal v = true
          · simp only [hskip, if_true]
            rcases ih (m + 1) acc with ⟨h1, h2, h3⟩
            exact ⟨h1, h2, h3⟩
          · simp only [Bool.not_eq_true] at hskip
            simp only [hskip, Bool.false_eq_true, if_false]
            by_cases hk : strCut (strKeep wordChar k) 100 = ""
            · simp only [hk, if_true]
              rcases ih (m + 1) acc with ⟨h1, h2, h3⟩
              exact ⟨h1, h2, h3⟩
            · simp only [hk, if_false]
              rcases ih m (recInsert acc (strCut (strKeep wordChar k) 100)
                (sanitizeParamValue v)) with ⟨h1, h2, h3⟩
              refine ⟨?_, ?_, ?_⟩
              · calc _ ≤ (recInsert acc (strCut (strKeep wordChar k) 100)
                      (sanitizeParamValue v)).length + m := h1
                  _ ≤ (acc.length + 1) + m := Nat.add_le_add_right (recInsert_length _ _ _) m
                  _ = acc.length + (m + 1) := by omega
              · intro hacc
                exact h2 (recInsert_fieldsOK acc _ _ hacc (sanitizeParamValue_ok v))
              · intro hacc
                refine h3 (recInsert_keys goodKey acc _ _ hacc ?_)
                refine ⟨hk, strCut_length _ _, strCut_strKeep_chars wordChar k 100⟩

/-- `sanitizePostFields` writes at most `n` more fields than the
accumulator, with bounded values and keys cut to 100 chars. -/
theorem sanitizePostFields_spec (fs : List (String × JSValue)) :
    ∀ (n : Nat) (acc : List (String × JSValue)),
      (sanitizePostFields n acc fs).length ≤ acc.length + n ∧
      (fieldsOK acc = true → fieldsOK (sanitizePostFields n acc fs) = true) ∧
      ((∀ kv ∈ acc, kv.1.length ≤ 100) →
        ∀ kv ∈ sanitizePostFields n acc fs, kv.1.length ≤ 100) := by
  induction fs with
  | nil => intro n acc; cases n <;> simp [sanitizePostFields]
  | cons kv rest ih =>
      intro n acc
      rcases kv with ⟨k, v⟩
      cases n with
      | zero => simp [sanitizePostFields]
      | succ m =>
          rcases ih m (recInsert acc (strCut k 100) (sanitizeParamValue v)) with
            ⟨hlen, hok, hkeys⟩
          refine ⟨?_, ?_, ?_⟩
          · calc (sanitizePostFields (m + 1) acc ((k, v) :: rest)).length
                = (sanitizePostFields m
                    (recInsert acc (strCut k 100) (sanitizeParamValue v)) rest).length := rfl
              _ ≤ (recInsert acc (strCut k 100) (sanitizeParamValue v)).length + m := hlen
              _ ≤ (acc.length + 1) + m := Nat.add_le_add_right (recInsert_length _ _ _) m
              _ = acc.length + (m + 1) := by omega
          · intro hacc
            exact hok (recInsert_fieldsOK acc _ _ hacc (sanitizeParamValue_ok v))
          · intro hacc
            refine hkeys (recInsert_keys (fun s => s.length ≤ 100) acc _ _ hacc ?_)
            exact strCut_length _ _

/-- Same shape for the nested-object loop: keys cut to 100 chars. -/
theorem sanitizeObjFields_keys (fs : List (String × JSValue)) :
    ∀ (n : Nat) (acc : List (String × JSValue)),
      (∀ kv ∈ acc, kv.1.length ≤ 100) →
      ∀ kv ∈ sanitizeObjFields n acc fs, kv.1.length ≤ 100 := by
  induction fs with
  | nil => intro n acc hacc; cases n <;> simpa [sanitizeObjFields] using hacc
  | cons kv rest ih =>
      intro n acc hacc
      rcases kv with ⟨k, v⟩
      cases n with
      | zero => simpa [sanitizeObjFields] using hacc
      | succ m =>
          show ∀ kv ∈ sanitizeObjFields m
            (recInsert acc (strCut k 100) (sanitizeParamValue v)) rest, kv.1.length ≤ 100
          exact ih m _ (recInsert_keys (fun s => s.length ≤ 100) acc _ _ hacc
            (strCut_length _ _))

/-- The query-param loop keeps at most `fuel` additional entries, every
kept value is at most 500 chars, every key stripped, non-empty and at most
50 chars. -/
theorem sanitizeQueryParamsAux_spec :
    ∀ (ps : List (String × Option String)) (fuel : Nat) (acc : List (String × String)),
      (sanitizeQueryParamsAux fuel acc ps).length ≤ acc.length + fuel ∧
      ((∀ kv ∈ acc, kv.2.length ≤ 500) →
        ∀ kv ∈ sanitizeQueryParamsAux fuel acc ps, kv.2.length ≤ 500) := by
  intro ps
  induction ps with
  | nil =>
      intro fuel acc
      cases fuel <;> simp [sanitizeQueryParamsAux]
  | cons kv rest ih =>
      intro fuel acc
      rcases kv with ⟨k, v⟩
      cases fuel with
      | zero => simp [sanitizeQueryParamsAux]
      | succ m =>
          cases v with
          | none =>
              rcases ih (m + 1) acc with ⟨h1, h2⟩
              exact ⟨h1, h2⟩
          | some s =>
              have heq : sanitizeQueryParamsAux (m + 1) acc ((k, some s) :: rest) =
                  if strCut (strKeep wordChar k) 50 = "" ∨ strCut s 500 = "" then
                    sanitizeQueryParamsAux (m + 1) acc rest
                  else sanitizeQueryParamsAux m
                    (recInsert acc (strCut (strKeep wordChar k) 50) (strCut s 500)) rest := rfl
              rw [heq]
              by_cases hc : strCut (strKeep wordChar k) 50 = "" ∨ strCut s 500 = ""
              · simp only [hc, if_true]
                rcases ih (m + 1) acc with ⟨h1, h2⟩
                exact ⟨h1, h2⟩
              · simp only [hc, if_false]
                rcases ih m (recInsert acc (strCut (strKeep wordChar k) 50)
                  (strCut s 500)) with ⟨h1, h2⟩
                refine ⟨?_, ?_⟩
                · calc _ ≤ (recInsert acc (strCut (strKeep wordChar k) 50)
                        (strCut s 500)).length + m := h1
                    _ ≤ (acc.length + 1) + m := Nat.add_le_add_right (recInsert_length _ _ _) m
                    _ = acc.length + (m + 1) := by omega
                · intro hacc
                  refine h2 ?_
                  intro kv hkv
                  have hmem := hkv
                  -- values of the accumulator after the insert
                  unfold recInsert at hmem
                  split at hmem
                  · rcases List.mem_map.mp hmem with ⟨p, hp, hpe⟩
                    by_cases hb : p.1 == strCut (strKeep wordChar k) 50
                    · simp [hb] at hpe
                      rw [← hpe]
                      exact strCut_length _ _
                    · simp [hb] at hpe
                      rw [← hpe]
                      exact hacc p hp
                  · rcases List.mem_append.mp hmem with h | h
                    · exact hacc kv h
                    · simp at h
                      rw [h]
                      exact strCut_length _ _

/-! ## Locator part structure lemmas -/

theorem takeWhile_fills_stop (q : Char → Bool) (a : List Char) (c : Char) (b : List Char)
    (ha : ∀ x ∈ a, q x = true) (hc : q c = false) :
    (a ++ c :: b).takeWhile q = a := by
  induction a with
  | nil => simp [List.takeWhile, hc]
  | cons x xs ih =>
      have hx := ha x (List.mem_cons_self x xs)
      have hxs : ∀ y ∈ xs, q y = true := fun y hy => ha y (List.mem_cons_of_mem x hy)
      simp [List.takeWhile, hx, ih hxs]

theorem drop_fills_stop {α : Type} (a : List α) (c : α) (b : List α) :
    (a ++ c :: b).drop (a.length + 1) = b := by
  induction a with
  | nil => simp
  | cons x xs ih => exact ih

/-- Every element of `buildLocatorParts` is `locPart` of a kept entry. -/
theorem buildLocatorParts_mem (ps : List (String × LocVal)) (p : String)
    (hp : p ∈ buildLocatorParts ps) :
    ∃ kv ∈ ps, locValKept kv.2 = true ∧ p = locPart kv.1 kv.2 := by
  unfold buildLocatorParts at hp
  have hp' := List.take_subset _ _ hp
  rcases List.mem_map.mp hp' with ⟨kv, hkv, he⟩
  have hmem := List.mem_filter.mp hkv
  exact ⟨kv, hmem.1, hmem.2, he.symm⟩

theorem locPart_toList (k : String) (v : LocVal) :
    (locPart k v).toList =
      (strCut (strKeep wordChar k) 50).toList ++ ':' ::
      (strCut (strKeep (fun c => !locDropChar c) (locValToString v)) 200).toList := by
  show ((strCut (strKeep wordChar k) 50 ++ ":") ++
      strCut (strKeep (fun c => !locDropChar c) (locValToString v)) 200).toList = _
  show (((strCut (strKeep wordChar k) 50).toList ++ [':']) ++
      (strCut (strKeep (fun c => !locDropChar c) (locValToString v)) 200).toList) = _
  simp

theorem locPart_keyChars (k : String) (v : LocVal) :
    (locPart k v).toList.takeWhile (fun c => c != ':') =
      (strCut (strKeep wordChar k) 50).toList := by
  rw [locPart_toList]
  refine takeWhile_fills_stop _ _ _ _ ?_ (by decide)
  intro x hx
  have hw := strCut_strKeep_chars wordChar k 50 x hx
  have : x ≠ ':' := by
    intro he
    rw [he] at hw
    exact absurd hw (by decide)
  simpa using this

/-! ## C7: sanitizer bounds -/

/-- C7 counterexample: `sanitizePostData` returns a top-level array
unchanged, so an array of 101 elements is not capped at 100 — and a
top-level non-finite number is not coerced to 0 — contradicting the claim
that "arrays are capped at 100 elements" and "non-finite numbers become 0"
for every input to the sanitizer. -/
theorem sanitizePostData_array_uncapped :
    sanitizePostData (.arr (List.replicate 101 (.num (.fin 0)))) =
      .arr (List.replicate 101 (.num (.fin 0))) ∧
    (List.replicate 101 (JSValue.num (.fin 0))).length = 101 ∧
    sanitizePostData (.num (.nonfin "NaN")) = .num (.nonfin "NaN") :=
  ⟨rfl, by simp, rfl⟩

/-- C7 (amended): sanitization never throws (it is a total function) and
the advertised bounds hold on every path that is actually sanitized:
`sanitizeParamValue` output is fully bounded (strings ≤ 1000, nested
objects ≤ 50 fields, arrays ≤ 100 elements) with non-finite numbers
becoming 0; GET params keep ≤ 50 entries of bounded values; a POST string
body is cut to ≤ 10000 chars; a POST object body keeps ≤ 100 fields of
bounded values; query values are cut to ≤ 500 chars with ≤ 20 entries.
However a POST body that is itself an array (or a bare number/boolean) is
returned unchanged, so those caps do not apply to it. -/
theorem sanitizer_bounds_amended :
    (∀ v : JSValue, valueOK (sanitizeParamValue v) = true) ∧
    (∀ r : String, sanitizeParamValue (.num (.nonfin r)) = .num (.fin 0)) ∧
    (∀ ps : List (String × JSValue),
      (sanitizeParamsAux 50 [] ps).length ≤ 50 ∧
      fieldsOK (sanitizeParamsAux 50 [] ps) = true) ∧
    (∀ s : String,
      sanitizePostData (.str s) = .str (strCut s 10000) ∧ (strCut s 10000).length ≤ 10000) ∧
    (∀ fs : List (String × JSValue),
      (sanitizePostFields 100 [] fs).length ≤ 100 ∧
      fieldsOK (sanitizePostFields 100 [] fs) = true) ∧
    (∀ qs : List (String × Option String),
      (sanitizeQueryParams qs).length ≤ 20 ∧
      ∀ kv ∈ sanitizeQueryParams qs, kv.2.length ≤ 500) ∧
    (∀ xs : List JSValue, sanitizePostData (.arr xs) = .arr xs) := by
  refine ⟨sanitizeParamValue_ok, fun r => rfl, ?_, ?_, ?_, ?_, fun xs => rfl⟩
  · intro ps
    rcases sanitizeParamsAux_spec ps 50 [] with ⟨h1, h2, _⟩
    exact ⟨by simpa using h1, h2 rfl⟩
  · intro s
    exact ⟨rfl, strCut_length s 10000⟩
  · intro fs
    rcases sanitizePostFields_spec fs 100 [] with ⟨h1, h2, _⟩
    exact ⟨by simpa using h1, h2 rfl⟩
  · intro qs
    rcases sanitizeQueryParamsAux_spec qs 20 [] with ⟨h1, h2⟩
    exact ⟨by simpa using h1, h2 (by simp)⟩

/-- Closed witness for the amended C7 theorem at concrete inputs. -/
theorem sanitizer_bounds_amended_witness :
    valueOK (sanitizeParamValue (.obj [("k", .str "v"), ("n", .num (.nonfin "NaN"))])) = true ∧
    (sanitizeParamsAux 50 [] [("a b", .str "x")]).length ≤ 50 ∧
    (∀ kv ∈ sanitizeQueryParams [("k", some "v")], kv.2.length ≤ 500) := by
  obtain ⟨h1, _, h3, _, _, h6, _⟩ := sanitizer_bounds_amended
  exact ⟨h1 _, (h3 _).1, (h6 _).2⟩

/-! ## C8: key sanitization -/

/-- C8 counterexample: keys of nested objects and of POST top-level
objects are only truncated, never stripped to `[A-Za-z0-9_-]` and never
dropped — the key `"a b!"` (containing a space and `!`) survives both
loops verbatim, contradicting the claim that every key at every nesting
level is stripped to that class. -/
theorem nested_keys_not_stripped :
    sanitizePostFields 100 [] [("a b!", .num (.fin 1))] = [("a b!", .num (.fin 1))] ∧
    sanitizeObjFields 50 [] [("a b!", .num (.fin 1))] = [("a b!", .num (.fin 1))] ∧
    ¬ (∀ c ∈ "a b!".toList, wordChar c = true) := by
  refine ⟨rfl, rfl, ?_⟩
  intro h
  exact absurd (h ' ' (by decide)) (by decide)

/-- C8 (amended): only the top-level GET parameter keys are stripped to
`[A-Za-z0-9_-]`, truncated to 100 chars and dropped when empty after
stripping; keys of nested objects and of POST top-level objects are merely
truncated to 100 chars (`String(key).substring(0, 100)`), with no character
stripping and no empty-key drop. -/
theorem key_sanitization_amended :
    (∀ ps : List (String × JSValue), ∀ kv ∈ sanitizeParamsAux 50 [] ps,
      kv.1 ≠ "" ∧ kv.1.length ≤ 100 ∧ ∀ c ∈ kv.1.toList, wordChar c = true) ∧
    (∀ (n : Nat) (fs : List (String × JSValue)), ∀ kv ∈ sanitizeObjFields n [] fs,
      kv.1.length ≤ 100) ∧
    (∀ fs : List (String × JSValue), ∀ kv ∈ sanitizePostFields 100 [] fs,
      kv.1.length ≤ 100) := by
  refine ⟨?_, ?_, ?_⟩
  · intro ps kv hkv
    exact (sanitizeParamsAux_spec ps 50 []).2.2 (by simp) kv hkv
  · intro n fs kv hkv
    exact sanitizeObjFields_keys fs n [] (by simp) kv hkv
  · intro fs kv hkv
    exact (sanitizePostFields_spec fs 100 []).2.2 (by simp) kv hkv

/-- Closed witness for the amended C8 theorem. -/
theorem key_sanitization_amended_witness :
    (∀ kv ∈ sanitizeParamsAux 50 [] [("a b!", JSValue.str "x")],
      kv.1 ≠ "" ∧ kv.1.length ≤ 100 ∧ ∀ c ∈ kv.1.toList, wordChar c = true) ∧
    (∀ kv ∈ sanitizeObjFields 50 []
        [("a b!", JSValue.num (.fin 1))], kv.1.length ≤ 100) := by
  obtain ⟨h1, h2, _⟩ := key_sanitization_amended
  exact ⟨h1 _, h2 50 _⟩

/-! ## C9: the locator builder -/

/-- C9: `buildLocator` joins `key:value` pairs with commas in caller
order; `buildLocator({status: "FAILURE", count: 5})` is
`"status:FAILURE,count:5"` and `buildLocator({name: "a,b"})` is
`"name:ab"`; entries whose value is `undefined`, `null` or `""` are
omitted; at most the first 20 parts are kept; every part is comma-free,
its key is at most 50 chars of `[A-Za-z0-9_-]` and its value at most 200
chars with `, ; ( ) [ ] { } ' " \` stripped. -/
theorem buildLocator_spec :
    buildLocator [("status", .str "FAILURE"), ("count", .num (.fin 5))]
        = "status:FAILURE,count:5" ∧
    buildLocator [("name", .str "a,b")] = "name:ab" ∧
    (∀ ps, (buildLocatorParts ps).length ≤ 20) ∧
    (∀ pre post k v, locValKept v = false →
      buildLocatorParts (pre ++ (k, v) :: post) = buildLocatorParts (pre ++ post)) ∧
    (∀ ps, ∀ p ∈ buildLocatorParts ps,
      (',' ∉ p.toList) ∧
      (p.toList.takeWhile (fun c => c != ':')).length ≤ 50 ∧
      (∀ c ∈ p.toList.takeWhile (fun c => c != ':'), wordChar c = true) ∧
      (p.toList.drop ((p.toList.takeWhile (fun c => c != ':')).length + 1)).length ≤ 200 ∧
      (∀ c ∈ p.toList.drop ((p.toList.takeWhile (fun c => c != ':')).length + 1),
        locDropChar c = false)) := by
  refine ⟨by decide, by decide, ?_, ?_, ?_⟩
  · intro ps
    unfold buildLocatorParts
    simp [List.length_take]
  · intro pre post k v hv
    unfold buildLocatorParts
    rw [List.filter_append, List.filter_append, List.filter_cons_of_neg]
    simp [hv]
  · intro ps p hp
    rcases buildLocatorParts_mem ps p hp with ⟨kv, _, _, he⟩
    subst he
    have hkey := locPart_keyChars kv.1 kv.2
    have hklist := locPart_toList kv.1 kv.2
    have hkchars := strCut_strKeep_chars wordChar kv.1 50
    have hvchars := strCut_strKeep_chars (fun c => !locDropChar c) (locValToString kv.2) 200
    have hdrop : (locPart kv.1 kv.2).toList.drop
        (((locPart kv.1 kv.2).toList.takeWhile (fun c => c != ':')).length + 1) =
        (strCut (strKeep (fun c => !locDropChar c) (locValToString kv.2)) 200).toList := by
      rw [hkey, hklist]
      exact drop_fills_stop _ _ _
    refine ⟨?_, ?_, ?_, ?_, ?_⟩
    · rw [hklist]
      intro hmem
      rcases List.mem_append.mp hmem with h | h
      · exact absurd (hkchars _ h) (by decide)
      · rcases List.mem_cons.mp h with h | h
        · exact absurd h (by decide)
        · have := hvchars _ h
          simp at this
          exact absurd this (by decide)
    · rw [hkey]
      exact strCut_length _ _
    · intro c hc
      rw [hkey] at hc
      exact hkchars c hc
    · rw [hdrop]
      exact strCut_length _ _
    · intro c hc
      rw [hdrop] at hc
      have := hvchars c hc
      simpa using this

/-- Closed witness for C9 at concrete inputs. -/
theorem buildLocator_spec_witness :
    buildLocator [("status", .str "FAILURE"), ("count", .num (.fin 5))]
        = "status:FAILURE,count:5" ∧
    (buildLocatorParts [("a", .str "b,c")]).length ≤ 20 ∧
    buildLocatorParts [("x", .undef), ("a", .str "b")] = buildLocatorParts [("a", .str "b")] ∧
    (',' ∉ "a:bc".toList) := by
  obtain ⟨h1, _, h3, h4, h5⟩ := buildLocator_spec
  refine ⟨h1, h3 _, ?_, ?_⟩
  · exact h4 [] [("a", .str "b")] "x" .undef rfl
  · exact (h5 [("a", .str "b,c")] "a:bc" (by decide)).1

/-! ## C1: cancel-build dispatch -/

/-- C1: `cancelBuild` dispatches on the fetched build state: `queued`
issues exactly one queue DELETE and no build POST (whatever the delete's
outcome — the un-awaited `return this.delete(...)` passes straight
through); `running` issues exactly one build POST on every path; any other
state resolves with the non-throwing `success: false` object describing
the actual state. -/
theorem cancelBuild_dispatch (buildId : String) (env : CancelEnv) (st : String)
    (hfetch : env.firstFetch = .ok st) :
    (st = "queued" →
      (cancelBuildModel buildId env).2.count .queueDelete = 1 ∧
      (cancelBuildModel buildId env).2.count .cancelPost = 0) ∧
    (st = "running" → (cancelBuildModel buildId env).2.count .cancelPost = 1) ∧
    (st ≠ "queued" → st ≠ "running" →
      (cancelBuildModel buildId env).1 =
        .ok (.notApplicable
          ("Build " ++ buildId ++ " is not running or queued (state: " ++ st ++ ")"))) := by
  obtain ⟨f1, f2, qd, cp⟩ := env
  subst hfetch
  refine ⟨?_, ?_, ?_⟩
  · intro h
    subst h
    exact ⟨by cases qd <;> rfl, by cases qd <;> rfl⟩
  · intro h
    subst h
    cases cp with
    | ok r => rfl
    | error ce =>
        cases f2 with
        | ok st2 =>
            by_cases h2 : st2 = "running"
            · simp only [cancelBuildModel]
              rw [if_neg (not_not_intro h2)]
              cases qd <;> rfl
            · simp only [cancelBuildModel]
              rw [if_pos h2]
              rfl
        | error fe => cases qd <;> rfl
  · intro hq hr
    simp only [cancelBuildModel]
    rw [if_neg hq, if_neg hr]

/-- Closed witness for C1: a queued build gets exactly one queue DELETE
and no POST; a finished build gets the non-throwing result. -/
theorem cancelBuild_dispatch_witness :
    ((cancelBuildModel "7" ⟨.ok "queued", .ok "queued", .ok true, .ok "r"⟩).2.count
        .queueDelete = 1 ∧
      (cancelBuildModel "7" ⟨.ok "queued", .ok "queued", .ok true, .ok "r"⟩).2.count
        .cancelPost = 0) ∧
    (cancelBuildModel "9" ⟨.ok "finished", .ok "finished", .ok true, .ok "r"⟩).1 =
      .ok (.notApplicable "Build 9 is not running or queued (state: finished)") := by
  refine ⟨(cancelBuild_dispatch "7" _ "queued" rfl).1 rfl, ?_⟩
  exact (cancelBuild_dispatch "9" ⟨.ok "finished", .ok "finished", .ok true, .ok "r"⟩
    "finished" rfl).2.2 (by decide) (by decide)

/-! ## C2: the cancel-failure race check -/

/-- A concrete environment: the build is running, the cancel POST fails,
the re-fetch still reports `running`, and the queue DELETE resolves. -/
def cancelRaceEnv : CancelEnv :=
  ⟨.ok "running", .ok "running", .ok true, .error (.errObj "cancel failed" none)⟩

/-- C2 counterexample: when the cancel POST fails and the re-fetch still
shows `running`, the re-thrown cancel error lands in the outer
build-not-found catch, which attempts a queue DELETE — and if that DELETE
resolves, the call returns its success instead of propagating the original
cancel error, contradicting the claim that the error is propagated. -/
theorem cancelBuild_race_counterexample :
    cancelRaceEnv.firstFetch = .ok "running" ∧
    cancelRaceEnv.cancelPostRes = .error (.errObj "cancel failed" none) ∧
    cancelRaceEnv.recheckFetch = .ok "running" ∧
    (cancelBuildModel "42" cancelRaceEnv).1 = .ok (.queueDeleted true) ∧
    (cancelBuildModel "42" cancelRaceEnv).1 ≠ .error (.errObj "cancel failed" none) := by
  refine ⟨rfl, rfl, rfl, rfl, ?_⟩
  intro h
  rw [show (cancelBuildModel "42" cancelRaceEnv).1 = .ok (.queueDeleted true) from rfl] at h
  exact Except.noConfusion h

/-- C2 (amended): if the cancel POST for a running build fails and the
re-fetch shows the state is no longer `running`, the call succeeds with
the race-window result; if the re-fetched state is still `running`, the
cancel error is re-thrown into the outer catch, which attempts a queue
DELETE — the call returns that DELETE's success when it resolves, and
propagates the original cancel error only when the DELETE also fails. -/
theorem cancelBuild_race_amended (buildId : String) (env : CancelEnv)
    (ce : ThrownVal) (st2 : String)
    (h1 : env.firstFetch = .ok "running")
    (h2 : env.cancelPostRes = .error ce)
    (h3 : env.recheckFetch = .ok st2) :
    (st2 ≠ "running" → (cancelBuildModel buildId env).1 =
      .ok (.noLongerRunning
        ("Build " ++ buildId ++ " is no longer running (state: " ++ st2 ++ ")"))) ∧
    (st2 = "running" →
      (∀ b, env.queueDeleteRes = .ok b →
        (cancelBuildModel buildId env).1 = .ok (.queueDeleted b)) ∧
      (∀ d, env.queueDeleteRes = .error d →
        (cancelBuildModel buildId env).1 = .error ce)) := by
  obtain ⟨f1, f2, qd, cp⟩ := env
  subst h1
  subst h2
  subst h3
  refine ⟨?_, ?_⟩
  · intro h
    simp only [cancelBuildModel]
    rw [if_pos h]
    simp
  · intro h
    refine ⟨?_, ?_⟩
    · intro b hb
      subst hb
      simp only [cancelBuildModel]
      rw [if_neg (not_not_intro h)]
      simp
    · intro d hd
      subst hd
      simp only [cancelBuildModel]
      rw [if_neg (not_not_intro h)]
      simp

/-- Closed witness for the amended C2 theorem: with a failing queue
DELETE, the original cancel error propagates. -/
theorem cancelBuild_race_amended_witness :
    (cancelBuildModel "42"
      ⟨.ok "running", .ok "running", .error (.errObj "gone" none),
        .error (.errObj "cancel failed" none)⟩).1 =
      .error (.errObj "cancel failed" none) := by
  exact ((cancelBuild_race_amended "42"
    ⟨.ok "running", .ok "running", .error (.errObj "gone" none),
      .error (.errObj "cancel failed" none)⟩
    (.errObj "cancel failed" none) "running" rfl rfl rfl).2 rfl).2 _ rfl

/-! ## C3: log fetch fallback -/

/-- C3: `fetchBuildLog` hits only the direct download endpoint when it
succeeds; on any direct failure it attempts the API-rooted fallback; when
both fail it returns the structured not-available result if either error
carries `response.status === 404`, and otherwise re-throws so the error
propagates to the caller. -/
theorem fetchBuildLog_fallback (tail : Bool) (lineCount : Option Nat)
    (d fb : Except ThrownVal String) :
    (∀ s, d = .ok s → (fetchBuildLogModel tail lineCount d fb).2 = [.directDownload]) ∧
    (∀ e, d = .error e →
      (fetchBuildLogModel tail lineCount d fb).2 = [.directDownload, .apiLogContent]) ∧
    (∀ e fe, d = .error e → fb = .error fe →
      ((respStatusOf e = some 404 ∨ respStatusOf fe = some 404) →
        (fetchBuildLogModel tail lineCount d fb).1 = .ok .notAvailable) ∧
      (respStatusOf e ≠ some 404 → respStatusOf fe ≠ some 404 →
        (fetchBuildLogModel tail lineCount d fb).1 = .error e)) := by
  refine ⟨?_, ?_, ?_⟩
  · intro s h
    subst h
    cases htm : tailMode tail lineCount <;> simp [fetchBuildLogModel, htm]
  · intro e h
    subst h
    cases fb with
    | ok t => cases htm : tailMode tail lineCount <;> simp [fetchBuildLogModel, htm]
    | error fe =>
        cases h4 : (respStatusOf e == some 404 || respStatusOf fe == some 404) <;>
          simp [fetchBuildLogModel, h4]
  · intro e fe hd hfb
    subst hd
    subst hfb
    refine ⟨?_, ?_⟩
    · intro h404
      have hb : (respStatusOf e == some 404 || respStatusOf fe == some 404) = true := by
        rcases h404 with h | h <;> simp [h]
      simp [fetchBuildLogModel, hb]
    · intro hne hnfe
      have hb : (respStatusOf e == some 404 || respStatusOf fe == some 404) = false := by
        simp [hne, hnfe]
      simp [fetchBuildLogModel, hb]

/-- Closed witness for C3: both endpoints failing, the fallback error a
404, yields the not-available result; with no 404 anywhere the primary
error propagates. -/
theorem fetchBuildLog_fallback_witness :
    (fetchBuildLogModel false none
      (.error (.errObj "boom" none)) (.error (.errObj "gone" (some 404)))).1 =
        .ok .notAvailable ∧
    (fetchBuildLogModel false none
      (.error (.errObj "boom" none)) (.error (.errObj "gone" (some 503)))).1 =
        .error (.errObj "boom" none) := by
  refine ⟨?_, ?_⟩
  · exact ((fetchBuildLog_fallback false none
      (.error (.errObj "boom" none)) (.error (.errObj "gone" (some 404)))).2.2
      _ _ rfl rfl).1 (Or.inr rfl)
  · exact ((fetchBuildLog_fallback false none
      (.error (.errObj "boom" none)) (.error (.errObj "gone" (some 503)))).2.2
      _ _ rfl rfl).2 (by decide) (by decide)

/-! ## C4: the error translator copies Error messages -/

/-- C4 counterexample: `createSafeError` copies a generic transport
`Error`'s message into the `SafeError` verbatim — the error here is an
`Error` instance, not a Zod validation error, yet `message` equals the
original `error.message` — contradicting the claim that the message is
never copied unless the error is the known-safe validation class. -/
theorem createSafeError_copies_verbatim :
    (createSafeError (.errObj "connect ECONNREFUSED 10.0.0.5:8111" none)
        "teamcity_api_request" 0 .externalServiceError).message =
      thrownMessage (.errObj "connect ECONNREFUSED 10.0.0.5:8111" none) ∧
    (createSafeError (.errObj "connect ECONNREFUSED 10.0.0.5:8111" none)
        "teamcity_api_request" 0 .externalServiceError).code = .externalServiceError :=
  ⟨rfl, rfl⟩

/-- C4 (amended): `createSafeError` copies the `message` of every `Error`
instance verbatim (transport errors included); only non-`Error` thrown
values receive the generic `An error occurred`; Zod validation errors
receive a reconstructed `Validation failed: …` summary (not their own
`message`) together with the `VALIDATION_ERROR` code. -/
theorem createSafeError_message_amended :
    (∀ (msg : String) (st : Option Nat) (op : String) (now : Nat) (code : ErrCode),
      (createSafeError (.errObj msg st) op now code).message =
        thrownMessage (.errObj msg st) ∧
      (createSafeError (.errObj msg st) op now code).code = code) ∧
    (∀ (r op : String) (now : Nat) (code : ErrCode),
      (createSafeError (.nonError r) op now code).message = "An error occurred") ∧
    (∀ (issues : List String) (op : String) (now : Nat) (code : ErrCode),
      (createSafeError (.zodErr issues) op now code).message =
        "Validation failed: " ++ String.intercalate ", " issues ∧
      (createSafeError (.zodErr issues) op now code).code = .validationError) :=
  ⟨fun _ _ _ _ _ => ⟨rfl, rfl⟩, fun _ _ _ _ => rfl, fun _ _ _ _ => ⟨rfl, rfl⟩⟩

/-! ## C5: no error ever carries an HTTP status through the pipeline -/

/-- Every settled client request either resolves with the body or rejects
with a plain `Error` (built by the interceptor) that carries no
`response`/`status`. -/
theorem clientRawRequest_cases (o : TransportOutcome) (now : Nat) :
    (∃ b, clientRawRequest o now = .ok b) ∨
    (∃ m, clientRawRequest o now = .error (.errObj m none)) := by
  cases o with
  | httpResp s body =>
      by_cases hs : s < 600
      · exact Or.inl ⟨body, by simp [clientRawRequest, axiosSettle, hs]⟩
      · refine Or.inr ⟨(handleHttpError
            (.errObj ("Request failed with status code " ++ toString s) (some s))
            "teamcity_api_request" now).message, ?_⟩
        simp [clientRawRequest, axiosSettle, hs, handleSecureError]
  | netFail m =>
      refine Or.inr ⟨(handleHttpError (.errObj m none)
        "teamcity_api_request" now).message, ?_⟩
      simp [clientRawRequest, axiosSettle, handleSecureError]

/-- C5: with `validateStatus: status < 600` every HTTP response — 4xx and
5xx included — resolves and its body is returned as ordinary data; every
error the client pipeline produces is a plain `Error` with no
`response.status`; consequently each catch branch keyed on
`error.response.status === 404` (`downloadArtifact`,
`getArtifactMetadata`, `listProjectHierarchy`,
`getCompatibleAgentsForBuildType`) is unreachable — it re-throws the error
unchanged — and `fetchBuildLog` composed with the pipeline can never
return its structured not-available result. -/
theorem transport_no_status_errors :
    (∀ (s : Nat) (b : String) (now : Nat), s < 600 →
      clientRawRequest (.httpResp s b) now = .ok b) ∧
    (∀ (o : TransportOutcome) (now : Nat) (e : ThrownVal),
      clientRawRequest o now = .error e → respStatusOf e = none) ∧
    (∀ (o : TransportOutcome) (now : Nat) (e : ThrownVal)
       (buildId path pid btid : String),
      clientRawRequest o now = .error e →
      downloadArtifactCatch buildId path e = e ∧
      getArtifactMetadataCatch e = .error e ∧
      listProjectHierarchyCatch pid e = e ∧
      compatibleAgentsCatch btid e = e) ∧
    (∀ (buildId : String) (tail : Bool) (lineCount : Option Nat)
       (o1 o2 : TransportOutcome) (now : Nat),
      (fetchBuildLogPiped buildId tail lineCount o1 o2 now).1 ≠ .ok .notAvailable) := by
  have status_none : ∀ (o : TransportOutcome) (now : Nat) (e : ThrownVal),
      clientRawRequest o now = .error e → respStatusOf e = none := by
    intro o now e h
    rcases clientRawRequest_cases o now with ⟨b, hb⟩ | ⟨m, hm⟩
    · rw [hb] at h
      exact Except.noConfusion h
    · rw [hm] at h
      have := Except.error.inj h
      rw [← this]
      rfl
  refine ⟨?_, status_none, ?_, ?_⟩
  · intro s b now hs
    simp [clientRawRequest, axiosSettle, hs]
  · intro o now e buildId path pid btid h
    have hst := status_none o now e h
    refine ⟨?_, ?_, ?_, ?_⟩ <;>
      simp [downloadArtifactCatch, getArtifactMetadataCatch,
        listProjectHierarchyCatch, compatibleAgentsCatch, hst]
  · intro buildId tail lineCount o1 o2 now
    unfold fetchBuildLogPiped
    rcases clientRawRequest_cases o1 now with ⟨b, hb⟩ | ⟨m, hm⟩
    · rw [hb]
      cases htm : tailMode tail lineCount <;>
        simp [fetchBuildLogModel, htm, logTailOf]
    · rw [hm]
      unfold clientGetText
      cases hv : validateEndpoint ("/builds/id:" ++ buildId ++ "/logs/content") with
      | some msg => simp [fetchBuildLogModel, respStatusOf]
      | none =>
          rcases clientRawRequest_cases o2 now with ⟨b2, hb2⟩ | ⟨m2, hm2⟩
          · rw [hb2]
            cases htm : tailMode tail lineCount <;>
              simp [fetchBuildLogModel, htm, logTailOf]
          · rw [hm2]
            simp [fetchBuildLogModel, respStatusOf]

/-! ## C6: endpoint validation blocks bad paths before any network call -/

/-- The claim's own bad-path predicate: the segment before the first `?`
contains `..`, one of the forbidden characters, or starts with a
`javascript:`/`data:`/`file:` scheme prefix (case-insensitively). -/
def claimBadPath (endpoint : String) : Bool :=
  let p := (pathSegOf endpoint).toList
  containsSeq "..".toList p || p.any pathBadChar ||
  leadsWith "javascript:".toList (p.map Char.toLower) ||
  leadsWith "data:".toList (p.map Char.toLower) ||
  leadsWith "file:".toList (p.map Char.toLower)

theorem leadsWith_containsSeq (sub l : List Char) (h : leadsWith sub l = true) :
    containsSeq sub l = true := by
  cases l with
  | nil => simpa [containsSeq] using h
  | cons x xs => simp [containsSeq, h]

theorem claimBadPath_dangerous (e : String) (h : claimBadPath e = true) :
    dangerousPathSeg (pathSegOf e) = true ∧ pathSegOf e ≠ "" := by
  constructor
  · unfold claimBadPath at h
    unfold dangerousPathSeg containsSeqCI
    simp only [Bool.or_eq_true] at h ⊢
    rcases h with ((((h | h) | h) | h) | h)
    · exact Or.inl (Or.inl (Or.inl (Or.inl h)))
    · exact Or.inl (Or.inl (Or.inl (Or.inr h)))
    · exact Or.inl (Or.inl (Or.inr (leadsWith_containsSeq _ _ h)))
    · exact Or.inl (Or.inr (leadsWith_containsSeq _ _ h))
    · exact Or.inr (leadsWith_containsSeq _ _ h)
  · intro hemp
    simp only [claimBadPath] at h
    rw [hemp] at h
    exact absurd h (by decide)

/-- C6: for every endpoint that is empty, longer than 500 characters, or
whose path segment contains `..`, a forbidden character, or a
`javascript:`/`data:`/`file:` scheme prefix, all five request methods
(`get`, `post`, `delete`, `getText`, `getBinary`) fail with the
validation error — its message starts with `Invalid endpoint:` — and issue
zero network calls. -/
theorem endpoint_validation_blocks (e : String)
    (params : Option (List (String × JSValue))) (data : JSValue)
    (o : TransportOutcome) (now : Nat)
    (h : e = "" ∨ 500 < e.length ∨ claimBadPath e = true) :
    ∃ msg, validateEndpoint e = some msg ∧
      leadsWith "Invalid endpoint:".toList msg.toList = true ∧
      clientGet e params o now = (.error (.errObj msg none), []) ∧
      clientPost e data o now = (.error (.errObj msg none), []) ∧
      clientDelete e o now = (.error (.errObj msg none), []) ∧
      clientGetText e o now = (.error (.errObj msg none), []) ∧
      clientGetBinary e o now = (.error (.errObj msg none), []) := by
  have hmsg : ∃ msg, validateEndpoint e = some msg ∧
      leadsWith "Invalid endpoint:".toList msg.toList = true := by
    by_cases h1 : e = ""
    · exact ⟨"Invalid endpoint: must be a non-empty string",
        by simp [validateEndpoint, h1], by decide⟩
    · by_cases h2 : 500 < e.length
      · exact ⟨"Invalid endpoint: too long",
          by simp [validateEndpoint, h1, h2], by decide⟩
      · have h3 : claimBadPath e = true := by
          rcases h with h | h | h
          · exact absurd h h1
          · exact absurd h h2
          · exact h
        rcases claimBadPath_dangerous e h3 with ⟨hd, hne⟩
        exact ⟨"Invalid endpoint: contains unsafe characters in path",
          by simp [validateEndpoint, h1, h2, hd, hne], by decide⟩
  rcases hmsg with ⟨msg, hval, hlead⟩
  exact ⟨msg, hval, hlead,
    by simp [clientGet, hval], by simp [clientPost, hval],
    by simp [clientDelete, hval], by simp [clientGetText, hval],
    by simp [clientGetBinary, hval]⟩

/-- Closed witness for C6 at the traversal endpoint `../etc/passwd`: the
GET is rejected with zero network calls. -/
theorem endpoint_validation_blocks_witness :
    (clientGet "../etc/passwd" none (.netFail "x") 0).2 = [] ∧
    (clientDelete "../etc/passwd" (.netFail "x") 0).2 = [] := by
  obtain ⟨msg, _, _, hget, _, hdel, _, _⟩ :=
    endpoint_validation_blocks "../etc/passwd" none .null (.netFail "x") 0
      (Or.inr (Or.inr (by decide)))
  exact ⟨congrArg Prod.snd hget, congrArg Prod.snd hdel⟩

/-! ## C10: the count dimension of build listing -/

/-- A `listBuilds` call with no parameters at all. -/
def emptyClientListParams : ClientListParams :=
  ⟨none, none, none, none, none, none, none, none, none, none, none, none, none⟩

/-- A `listBuilds` call with a raw locator (and even a structured count,
which the raw locator bypasses). -/
def rawLocatorListParams : ClientListParams :=
  ⟨some "status:SUCCESS", none, none, none, some 3, none, none, none, none,
    none, none, none, none⟩

/-- C10 counterexample: `TeamCityClient.listBuilds` does not always append
a `count` dimension — with no parameters its locator is empty, and a raw
caller locator is passed through verbatim with no `count:` added (even
when a structured count was also supplied). -/
theorem clientListBuilds_count_missing :
    clientListBuildsLocator emptyClientListParams = "" ∧
    containsSeq "count:".toList (clientListBuildsLocator emptyClientListParams).toList
      = false ∧
    clientListBuildsLocator rawLocatorListParams = "status:SUCCESS" ∧
    containsSeq "count:".toList (clientListBuildsLocator rawLocatorListParams).toList
      = false := by
  refine ⟨rfl, by decide, rfl, by decide⟩

/-- `params.count || 5`. -/
def effectiveCount (c : Option Int) : Int :=
  match c with
  | some n => if n = 0 then 5 else n
  | none => 5

theorem mem_ite_singleton {α : Type} {a x : α} {c : Prop} [Decidable c]
    (h : a ∈ (if c then [x] else [])) : a = x := by
  split at h
  · simpa using h
  · simp at h

theorem count_leadsWith_false_of_head (x : Char) (l : List Char) (hx : x ≠ 'c') :
    leadsWith "count:".toList (x :: l) = false := by
  have hb : ('c' == x) = false := beq_eq_false_iff_ne.mpr (Ne.symm hx)
  show leadsWith ('c' :: "ount:".toList) (x :: l) = false
  simp [leadsWith, hb]

/-- C10 (amended): the tool-layer `listBuilds` handler (index.ts) always
appends `count:` as the final locator part, using the caller's count when
it is a truthy (nonzero) value and 5 otherwise; but the client-layer
`TeamCityClient.listBuilds` does not: a truthy raw locator is passed
through unchanged, and the structured locator gains a `count` part only
when the caller supplies a truthy count — no part of the client layer adds
a default. -/
theorem listBuilds_count_amended :
    (∀ p : ListBuildsParams,
      (indexListBuildsParts p).getLast? =
        some ("count:" ++ toString (effectiveCount p.count))) ∧
    (∀ (p : ClientListParams) (l : String), p.locator = some l → l ≠ "" →
      clientListBuildsLocator p = l) ∧
    (∀ p : ClientListParams, intTruthy p.count = false →
      ∀ part ∈ buildHighLevelLocatorParts p,
        leadsWith "count:".toList part.toList = false) := by
  refine ⟨?_, ?_, ?_⟩
  · intro p
    have heq : indexListBuildsParts p =
      ((if optTruthy p.status then ["status:" ++ p.status.getD ""] else []) ++
       (if optTruthy p.state then ["state:" ++ p.state.getD ""] else []) ++
       (if optTruthy p.projectId then ["project:(id:" ++ p.projectId.getD "" ++ ")"] else []) ++
       (if optTruthy p.branch then ["branch:" ++ p.branch.getD ""] else []) ++
       (if optTruthy p.since then ["sinceDate:" ++ p.since.getD ""] else [])) ++
      ["count:" ++ toString (effectiveCount p.count)] := rfl
    rw [heq]
    exact List.getLast?_concat _
  · intro p l hl hne
    simp [clientListBuildsLocator, optTruthy, hl, hne]
  · intro p hc part hpart
    simp only [buildHighLevelLocatorParts, hc, Bool.false_eq_true, if_false,
      List.append_nil] at hpart
    rcases List.mem_append.mp hpart with hpart | hpart
    case inr =>
      rw [mem_ite_singleton hpart]
      exact count_leadsWith_false_of_head 's' _ (by decide)
    rcases List.mem_append.mp hpart with hpart | hpart
    case inr =>
      rw [mem_ite_singleton hpart]
      exact count_leadsWith_false_of_head 't' _ (by decide)
    rcases List.mem_append.mp hpart with hpart | hpart
    case inr =>
      rw [mem_ite_singleton hpart]
      exact count_leadsWith_false_of_head 'u' _ (by decide)
    rcases List.mem_append.mp hpart with hpart | hpart
    case inr =>
      rw [mem_ite_singleton hpart]
      exact count_leadsWith_false_of_head 's' _ (by decide)
    rcases List.mem_append.mp hpart with hpart | hpart
    case inr =>
      rw [mem_ite_singleton hpart]
      exact count_leadsWith_false_of_head 'u' _ (by decide)
    rcases List.mem_append.mp hpart with hpart | hpart
    case inr =>
      rw [mem_ite_singleton hpart]
      exact count_leadsWith_false_of_head 'a' _ (by decide)
    rcases List.mem_append.mp hpart with hpart | hpart
    case inr =>
      rw [mem_ite_singleton hpart]
      exact count_leadsWith_false_of_head 'b' _ (by decide)
    rcases List.mem_append.mp hpart with hpart | hpart
    case inr =>
      rw [mem_ite_singleton hpart]
      exact count_leadsWith_false_of_head 's' _ (by decide)
    rcases List.mem_append.mp hpart with hpart | hpart
    case inr =>
      rw [mem_ite_singleton hpart]
      exact count_leadsWith_false_of_head 's' _ (by decide)
    rcases List.mem_append.mp hpart with hpart | hpart
    case inr =>
      rw [mem_ite_singleton hpart]
      exact count_leadsWith_false_of_head 'b' _ (by decide)
    rw [mem_ite_singleton hpart]
    exact count_leadsWith_false_of_head 'p' _ (by decide)

/-- Closed witness for the amended C10 theorem: a raw locator passes
through, and the tool layer defaults `count` to 5. -/
theorem listBuilds_count_amended_witness :
    clientListBuildsLocator rawLocatorListParams = "status:SUCCESS" ∧
    (indexListBuildsParts ⟨none, none, none, none, none, none⟩).getLast? =
      some "count:5" := by
  obtain ⟨h1, h2, _⟩ := listBuilds_count_amended
  exact ⟨h2 rawLocatorListParams "status:SUCCESS" rfl (by decide), h1 _⟩

end TCMCP
